import Mathlib

/-!
Verification of the `Deferred` one-shot callable container
(`src/deferred.rs` of crossbeam-epoch).

The embedding models a captured callable `F : FnOnce() + Send + 'static`
as a `Closure α`: its byte size (`mem::size_of::<F>()`), alignment
(`mem::align_of::<F>()`), and the byte representation of a captured
value of type `α` (`encode` mirrors the raw bytes at `&f as *const u8`;
`decode` mirrors `ptr::read` reconstructing the value from those bytes).
Side effects — running the captured computation, dropping the captured
state, the raw-byte relocation, `mem::forget`, boxing, clearing the
vtable, taking the box out — are recorded as an explicit event trace in
the order the source performs them.
-/

namespace DeferredModel

/-- `mem::size_of::<u64>()`. -/
def u64Size : Nat := 8

/-- `mem::align_of::<u64>()`. -/
def u64Align : Nat := 8

/-- `type Data = [u64; 4]`: `mem::size_of::<Data>()` in bytes. -/
def dataSize : Nat := 4 * u64Size

/-- `mem::align_of::<Data>()` (alignment of an array is that of its element). -/
def dataAlign : Nat := u64Align

/-- A captured callable `F`: its layout (size and alignment in bytes, as
measured by `mem::size_of` / `mem::align_of`) and the byte representation
of a captured value of type `α`.  `encode v` is the list of bytes at the
address of the value; `decode` is what `ptr::read` reconstructs from
those bytes. -/
structure Closure (α : Type) where
  size : Nat
  align : Nat
  encode : α → List Nat
  decode : List Nat → α

/-- The closure's byte representation is faithful: encoding has exactly
`size` bytes and `ptr::read` of those bytes yields the original value.
This is the relocation-validity guarantee Rust provides for movable
types. -/
def Closure.WF {α : Type} (c : Closure α) : Prop :=
  (∀ v, (c.encode v).length = c.size) ∧ (∀ v, c.decode (c.encode v) = v)

/-- Observable side effects, in the order the source performs them. -/
inductive Event (α : Type) where
  /-- `ptr::copy_nonoverlapping` of the capture's bytes into the inline
  buffer (`Deferred::new`, inline branch). -/
  | relocateBytes : Event α
  /-- `mem::forget(f)`: suppress the drop of the original location
  (`Deferred::new`, inline branch). -/
  | forgetOriginal : Event α
  /-- `Box::new(f)`: move the capture into a fresh heap cell
  (`Deferred::new`, heap branch). -/
  | heapAlloc : Event α
  /-- `mem::replace(&mut obj.vtable, ptr::null_mut())` (`Deferred::call`,
  inline branch). -/
  | clearVtable : Event α
  /-- `opt.take()` (`Deferred::call`, heap branch). -/
  | takeBox : Event α
  /-- The captured computation runs, observing captured state `v`. -/
  | exec : α → Event α
  /-- The captured state `v` is dropped (consumed by the `FnOnce`). -/
  | dropCapture : α → Event α
  deriving DecidableEq, Repr

/-- `struct InlineObject { data: Data, vtable: *mut () }`.  `data` is the
32-byte buffer; `vtable` is the dispatch handle, `none` modelling the
null sentinel and `some c` a valid vtable pointer for the concrete
closure type. -/
structure InlineObject (α : Type) where
  data : List Nat
  vtable : Option (Closure α)

/-- `enum Deferred { OnStack(InlineObject), OnHeap(Option<Box<Callback>>) }`.
The boxed trait object is a fat pointer: the captured value together
with its vtable. -/
inductive Deferred (α : Type) where
  | onStack : InlineObject α → Deferred α
  | onHeap : Option (α × Closure α) → Deferred α

/-- `ptr::copy_nonoverlapping(src, dst, n)` on byte buffers: the first
`n` bytes come from `src`, the rest of `dst` is unchanged. -/
def copyNonoverlapping (src dst : List Nat) (n : Nat) : List Nat :=
  src.take n ++ dst.drop n

/-- `Data::default()`: 32 zero bytes. -/
def dataDefault : List Nat := List.replicate dataSize 0

/-- `Deferred::new`: measure size and alignment of `F`; if both fit the
inline buffer (inclusive bounds), relocate the raw bytes into a zeroed
inline buffer, forget the original, and store the vtable; otherwise box
the capture.  Returns the constructed value and the trace of effects of
construction. -/
def Deferred.new {α : Type} (c : Closure α) (v : α) : Deferred α × List (Event α) :=
  if c.size ≤ dataSize ∧ c.align ≤ dataAlign then
    (Deferred.onStack
      { data := copyNonoverlapping (c.encode v) dataDefault c.size
        vtable := some c },
     [Event.relocateBytes, Event.forgetOriginal])
  else
    (Deferred.onHeap (some (v, c)), [Event.heapAlloc])

/-- `Callback::copy_and_call` for the inline path: `ptr::read` the first
`size` bytes of the buffer back into a value (the copy), then run it;
the `FnOnce` consumes and drops its captured state. -/
def copyAndCall {α : Type} (c : Closure α) (data : List Nat) : List (Event α) :=
  let f := c.decode (data.take c.size)
  [Event.exec f, Event.dropCapture f]

/-- `Callback::call_box` for the heap path: unbox the value and run it;
the `FnOnce` consumes and drops its captured state. -/
def callBox {α : Type} (v : α) : List (Event α) :=
  [Event.exec v, Event.dropCapture v]

/-- Outcome of `Deferred::call`: normal return or panic, each with the
final state of the `Deferred` and the trace of effects of the call. -/
inductive CallResult (α : Type) where
  | ok : Deferred α → List (Event α) → CallResult α
  | panic : String → Deferred α → List (Event α) → CallResult α

/-- The assertion message of `Deferred::call`. -/
def panicMsg : String := "cannot call `FnOnce` more than once"

/-- `Deferred::call`.  Inline branch: `mem::replace` the vtable with
null first, panic if it already was null, otherwise dispatch through
`copy_and_call` on the buffer.  Heap branch: `opt.take()` first, panic
if the slot was already empty, otherwise dispatch through `call_box`. -/
def Deferred.call {α : Type} : Deferred α → CallResult α
  | Deferred.onStack obj =>
    match obj.vtable with
    | none =>
      CallResult.panic panicMsg (Deferred.onStack { obj with vtable := none })
        [Event.clearVtable]
    | some c =>
      CallResult.ok (Deferred.onStack { obj with vtable := none })
        (Event.clearVtable :: copyAndCall c obj.data)
  | Deferred.onHeap opt =>
    match opt with
    | none =>
      CallResult.panic panicMsg (Deferred.onHeap none) [Event.takeBox]
    | some (v, _) =>
      CallResult.ok (Deferred.onHeap none) (Event.takeBox :: callBox v)

/-- Which storage variant a `Deferred` uses (`true` = inline). -/
def Deferred.isOnStack {α : Type} : Deferred α → Bool
  | Deferred.onStack _ => true
  | Deferred.onHeap _ => false

/-- The "already invoked" marker: the active variant's dispatch handle
is the sentinel (null vtable / empty slot). -/
def Deferred.invoked {α : Type} : Deferred α → Bool
  | Deferred.onStack obj => obj.vtable.isNone
  | Deferred.onHeap opt => opt.isNone

/-- Whether an event is an execution of the captured computation. -/
def Event.isExec {α : Type} : Event α → Bool
  | Event.exec _ => true
  | _ => false

/-- Whether an event is a drop of the captured state. -/
def Event.isDrop {α : Type} : Event α → Bool
  | Event.dropCapture _ => true
  | _ => false

/-- How many times a trace executes the captured computation. -/
def execCount {α : Type} (evs : List (Event α)) : Nat :=
  (evs.filter Event.isExec).length

/-- How many times a trace drops the captured state. -/
def dropCount {α : Type} (evs : List (Event α)) : Nat :=
  (evs.filter Event.isDrop).length

/-- The captured-state values observed by executions in a trace. -/
def observedValues {α : Type} : List (Event α) → List α
  | [] => []
  | Event.exec v :: rest => v :: observedValues rest
  | _ :: rest => observedValues rest

/-- Whether a call returned normally (`true`) or panicked (`false`). -/
def CallResult.isOk {α : Type} : CallResult α → Bool
  | CallResult.ok _ _ => true
  | CallResult.panic _ _ _ => false

/-- The state of the `Deferred` after the call (normal or panicking). -/
def CallResult.state {α : Type} : CallResult α → Deferred α
  | CallResult.ok d _ => d
  | CallResult.panic _ d _ => d

/-- The trace of effects of the call (normal or panicking). -/
def CallResult.events {α : Type} : CallResult α → List (Event α)
  | CallResult.ok _ evs => evs
  | CallResult.panic _ _ evs => evs

/-- The inline buffer contents, when the inline variant is active. -/
def inlineData {α : Type} : Deferred α → Option (List Nat)
  | Deferred.onStack obj => some obj.data
  | Deferred.onHeap _ => none

/-- The trace of a call that finds the handle already at the sentinel:
the inline branch still performs the `mem::replace` (writing null over
null), the heap branch still performs the `opt.take()` (leaving the
empty slot empty). -/
def sentinelTrace {α : Type} : Deferred α → List (Event α)
  | Deferred.onStack _ => [Event.clearVtable]
  | Deferred.onHeap _ => [Event.takeBox]

/-- A concrete small capture: one byte holding a boolean flag
(`size_of = 1`, `align_of = 1`), e.g. a closure capturing a `bool`. -/
def boolClosure : Closure Bool where
  size := 1
  align := 1
  encode := fun b => [if b then 1 else 0]
  decode := fun l => decide (l.headI = 1)

/-- A capture exactly at the inline boundary: 32 bytes, alignment 8,
e.g. a closure capturing a `[u64; 4]`. -/
def boundaryClosure : Closure Bool where
  size := 32
  align := 8
  encode := fun b => (if b then 1 else 0) :: List.replicate 31 0
  decode := fun l => decide (l.headI = 1)

/-- A capture too large for the inline buffer: 80 bytes, alignment 8,
e.g. a closure capturing a `[u64; 10]`. -/
def bigClosure : Closure Bool where
  size := 80
  align := 8
  encode := fun b => (if b then 1 else 0) :: List.replicate 79 0
  decode := fun l => decide (l.headI = 1)

/-- A zero-sized capture with trivial alignment, e.g. a closure
capturing nothing (`size_of = 0`, `align_of = 1`). -/
def zstClosure : Closure Unit where
  size := 0
  align := 1
  encode := fun _ => []
  decode := fun _ => ()

/-- A zero-sized but over-aligned capture, e.g. a closure capturing a
`#[repr(align(64))] struct Z;` (`size_of = 0`, `align_of = 64`). -/
def alignedZstClosure : Closure Unit where
  size := 0
  align := 64
  encode := fun _ => []
  decode := fun _ => ()

/-- The `Deferred` built from the one-byte capture holding `true`. -/
def dBool : Deferred Bool := (Deferred.new boolClosure true).1

/-- Its inline buffer contents. -/
def dBoolData : List Nat :=
  copyNonoverlapping (boolClosure.encode true) dataDefault boolClosure.size

/-- The inline-fit test of `Deferred::new`, with the layout constants
evaluated: `size_of::<Data>() = 32` and `align_of::<Data>() = 8`. -/
theorem fits_iff (c : Closure α) :
    (c.size ≤ dataSize ∧ c.align ≤ dataAlign) ↔ (c.size ≤ 32 ∧ c.align ≤ 8) := by
  unfold dataSize dataAlign u64Size u64Align
  norm_num

/-- Unfolding of `Deferred::new` on the inline branch. -/
theorem new_inline_eq (c : Closure α) (v : α)
    (h : c.size ≤ 32 ∧ c.align ≤ 8) :
    Deferred.new c v =
      (Deferred.onStack
        ⟨copyNonoverlapping (c.encode v) dataDefault c.size, some c⟩,
       [Event.relocateBytes, Event.forgetOriginal]) := by
  unfold Deferred.new
  rw [if_pos ((fits_iff c).mpr h)]

/-- Unfolding of `Deferred::new` on the heap branch. -/
theorem new_heap_eq (c : Closure α) (v : α)
    (h : ¬(c.size ≤ 32 ∧ c.align ≤ 8)) :
    Deferred.new c v = (Deferred.onHeap (some (v, c)), [Event.heapAlloc]) := by
  unfold Deferred.new
  rw [if_neg (fun hc => h ((fits_iff c).mp hc))]

/-- C1: `Deferred::new` stores the capture inline exactly when its size
is at most 32 bytes and its alignment at most 8 (that of `u64`), both
bounds inclusive; the inline path relocates the raw bytes into the
zeroed buffer and suppresses the drop of the original location
(`mem::forget`, so construction drops nothing); otherwise the capture
is moved into a freshly allocated heap cell. -/
theorem new_storage_selection (c : Closure α) (v : α) :
    ((Deferred.new c v).1.isOnStack = true ↔ c.size ≤ 32 ∧ c.align ≤ 8) ∧
    dropCount (Deferred.new c v).2 = 0 ∧
    (c.size ≤ 32 ∧ c.align ≤ 8 →
      Deferred.new c v =
        (Deferred.onStack
          ⟨copyNonoverlapping (c.encode v) dataDefault c.size, some c⟩,
         [Event.relocateBytes, Event.forgetOriginal])) ∧
    (¬(c.size ≤ 32 ∧ c.align ≤ 8) →
      Deferred.new c v = (Deferred.onHeap (some (v, c)), [Event.heapAlloc])) := by
  by_cases h : c.size ≤ 32 ∧ c.align ≤ 8
  · rw [new_inline_eq c v h]
    exact ⟨⟨fun _ => h, fun _ => rfl⟩, rfl, fun _ => rfl, fun hc => absurd h hc⟩
  · rw [new_heap_eq c v h]
    refine ⟨⟨fun hs => ?_, fun hc => absurd hc h⟩, rfl, fun hc => absurd hc h,
      fun _ => rfl⟩
    simp [Deferred.isOnStack] at hs

/-- C1 witness: a capture exactly at the 32-byte / align-8 boundary is
classified inline, and an 80-byte capture goes to the heap. -/
theorem new_storage_selection_witness :
    (Deferred.new boundaryClosure true).1.isOnStack = true ∧
    (Deferred.new bigClosure true).1.isOnStack = false := by
  constructor
  · exact (new_storage_selection boundaryClosure true).1.mpr (by decide)
  · rw [(new_storage_selection bigClosure true).2.2.2 (by decide)]
    rfl

/-- C8: construction always succeeds: `Deferred::new` is a total
function and the resulting `Deferred` is populated (its dispatch handle
is not the sentinel) in exactly one of the two variants; there is no
error outcome. -/
theorem construct_always_succeeds (c : Closure α) (v : α) :
    (Deferred.new c v).1.invoked = false ∧
    ((Deferred.new c v).1 =
        Deferred.onStack
          ⟨copyNonoverlapping (c.encode v) dataDefault c.size, some c⟩ ∨
     (Deferred.new c v).1 = Deferred.onHeap (some (v, c))) := by
  by_cases h : c.size ≤ 32 ∧ c.align ≤ 8
  · rw [new_inline_eq c v h]
    exact ⟨rfl, Or.inl rfl⟩
  · rw [new_heap_eq c v h]
    exact ⟨rfl, Or.inr rfl⟩

/-- C9: construction never executes the captured computation and never
drops the captured state: the construction trace contains no `exec` and
no `dropCapture` event on either branch. -/
theorem construct_no_execution (c : Closure α) (v : α) :
    execCount (Deferred.new c v).2 = 0 ∧ dropCount (Deferred.new c v).2 = 0 := by
  by_cases h : c.size ≤ 32 ∧ c.align ≤ 8
  · rw [new_inline_eq c v h]
    exact ⟨rfl, rfl⟩
  · rw [new_heap_eq c v h]
    exact ⟨rfl, rfl⟩

/-- Unfolding of `Deferred::call` on a populated inline variant. -/
theorem call_onStack_some (data : List Nat) (c : Closure α) :
    (Deferred.onStack ⟨data, some c⟩ : Deferred α).call =
      CallResult.ok (Deferred.onStack ⟨data, none⟩)
        [Event.clearVtable, Event.exec (c.decode (data.take c.size)),
         Event.dropCapture (c.decode (data.take c.size))] := rfl

/-- Unfolding of `Deferred::call` on an inline variant with null vtable. -/
theorem call_onStack_none (data : List Nat) :
    (Deferred.onStack ⟨data, none⟩ : Deferred α).call =
      CallResult.panic panicMsg (Deferred.onStack ⟨data, none⟩)
        [Event.clearVtable] := rfl

/-- Unfolding of `Deferred::call` on a populated heap variant. -/
theorem call_onHeap_some (v : α) (c : Closure α) :
    (Deferred.onHeap (some (v, c))).call =
      CallResult.ok (Deferred.onHeap none)
        [Event.takeBox, Event.exec v, Event.dropCapture v] := rfl

/-- Unfolding of `Deferred::call` on an emptied heap variant. -/
theorem call_onHeap_none :
    (Deferred.onHeap (none : Option (α × Closure α))).call =
      CallResult.panic panicMsg (Deferred.onHeap none) [Event.takeBox] := rfl

/-- C2: for every capture, inline or heap, constructing a `Deferred`
and invoking it once returns normally, executes the captured
computation exactly once and drops the captured state exactly once over
the whole construction-plus-call trace, and leaves the `Deferred` with
no residual captured state (sentinel handle). -/
theorem construct_invoke_once (c : Closure α) (v : α) :
    (Deferred.new c v).1.call.isOk = true ∧
    execCount ((Deferred.new c v).2 ++ (Deferred.new c v).1.call.events) = 1 ∧
    dropCount ((Deferred.new c v).2 ++ (Deferred.new c v).1.call.events) = 1 ∧
    (Deferred.new c v).1.call.state.invoked = true := by
  by_cases h : c.size ≤ 32 ∧ c.align ≤ 8
  · rw [new_inline_eq c v h]
    exact ⟨rfl, rfl, rfl, rfl⟩
  · rw [new_heap_eq c v h]
    exact ⟨rfl, rfl, rfl, rfl⟩

/-- C3: calling a second time after a successful invocation panics with
the already-invoked message, and the panicking call neither re-executes
the computation nor drops the captured state again. -/
theorem second_call_panics (d d' : Deferred α) (evs : List (Event α))
    (h : d.call = CallResult.ok d' evs) :
    d'.call = CallResult.panic panicMsg d' (sentinelTrace d') ∧
    execCount (sentinelTrace d') = 0 ∧ dropCount (sentinelTrace d') = 0 := by
  cases d with
  | onStack obj =>
    obtain ⟨data, vt⟩ := obj
    cases vt with
    | none => rw [call_onStack_none] at h; exact CallResult.noConfusion h
    | some c =>
      rw [call_onStack_some] at h
      injection h with h1 h2
      subst h1
      exact ⟨rfl, rfl, rfl⟩
  | onHeap opt =>
    cases opt with
    | none => rw [call_onHeap_none] at h; exact CallResult.noConfusion h
    | some p =>
      obtain ⟨w, c⟩ := p
      rw [call_onHeap_some] at h
      injection h with h1 h2
      subst h1
      exact ⟨rfl, rfl, rfl⟩

/-- C3 witness: the one-byte capture, once invoked, is an inline
`Deferred` with null vtable; a second call on it panics with no
execution and no drop. -/
theorem second_call_panics_witness :
    (Deferred.onStack ⟨dBoolData, none⟩ : Deferred Bool).call =
      CallResult.panic panicMsg (Deferred.onStack ⟨dBoolData, none⟩)
        (sentinelTrace (Deferred.onStack ⟨dBoolData, none⟩ : Deferred Bool)) ∧
    execCount (sentinelTrace (Deferred.onStack ⟨dBoolData, none⟩ : Deferred Bool)) = 0 ∧
    dropCount (sentinelTrace (Deferred.onStack ⟨dBoolData, none⟩ : Deferred Bool)) = 0 :=
  second_call_panics dBool (Deferred.onStack ⟨dBoolData, none⟩)
    [Event.clearVtable, Event.exec true, Event.dropCapture true] (by rfl)

/-- C4: in every successful call the dispatch handle is cleared to the
sentinel before the computation is dispatched: the trace begins with
the clearing event of the active variant (null vtable / slot taken),
the post state holds the sentinel (inline keeps its bytes with a null
vtable; heap is left with nothing behind), and the execution event
comes strictly after. -/
theorem clear_before_dispatch (d d' : Deferred α) (evs : List (Event α))
    (h : d.call = CallResult.ok d' evs) :
    ∃ v, (∃ data, d' = Deferred.onStack ⟨data, none⟩ ∧
            evs = [Event.clearVtable, Event.exec v, Event.dropCapture v]) ∨
         (d' = Deferred.onHeap none ∧
            evs = [Event.takeBox, Event.exec v, Event.dropCapture v]) := by
  cases d with
  | onStack obj =>
    obtain ⟨data, vt⟩ := obj
    cases vt with
    | none => rw [call_onStack_none] at h; exact CallResult.noConfusion h
    | some c =>
      rw [call_onStack_some] at h
      injection h with h1 h2
      exact ⟨c.decode (data.take c.size), Or.inl ⟨data, h1.symm, h2.symm⟩⟩
  | onHeap opt =>
    cases opt with
    | none => rw [call_onHeap_none] at h; exact CallResult.noConfusion h
    | some p =>
      obtain ⟨w, c⟩ := p
      rw [call_onHeap_some] at h
      injection h with h1 h2
      exact ⟨w, Or.inr ⟨h1.symm, h2.symm⟩⟩

/-- C4 witness: the call on the one-byte inline capture clears the
vtable first and dispatches afterwards. -/
theorem clear_before_dispatch_witness :
    ∃ v, (∃ data, (Deferred.onStack ⟨dBoolData, none⟩ : Deferred Bool) =
            Deferred.onStack ⟨data, none⟩ ∧
            ([Event.clearVtable, Event.exec true, Event.dropCapture true]
              : List (Event Bool)) =
              [Event.clearVtable, Event.exec v, Event.dropCapture v]) ∨
         ((Deferred.onStack ⟨dBoolData, none⟩ : Deferred Bool) =
            Deferred.onHeap none ∧
            ([Event.clearVtable, Event.exec true, Event.dropCapture true]
              : List (Event Bool)) =
              [Event.takeBox, Event.exec v, Event.dropCapture v]) :=
  clear_before_dispatch dBool (Deferred.onStack ⟨dBoolData, none⟩)
    [Event.clearVtable, Event.exec true, Event.dropCapture true] (by rfl)

/-- C5: a fresh `Deferred` is in the `Constructed` state (handle not
sentinel); a successful call goes from `Constructed` to the terminal
`Invoked` state and keeps the storage variant (and the inline bytes)
unchanged; a panicking call happens only in the `Invoked` state and
leaves the state exactly as it was — so the only transition is
`Constructed` to `Invoked` and the variant never changes. -/
theorem single_transition (c : Closure α) (v : α) (d d' : Deferred α) :
    (Deferred.new c v).1.invoked = false ∧
    (∀ evs, d.call = CallResult.ok d' evs →
      d.invoked = false ∧ d'.invoked = true ∧
      d'.isOnStack = d.isOnStack ∧ inlineData d' = inlineData d) ∧
    (∀ m evs, d.call = CallResult.panic m d' evs →
      d.invoked = true ∧ d' = d) := by
  refine ⟨?_, ?_, ?_⟩
  · by_cases h : c.size ≤ 32 ∧ c.align ≤ 8
    · rw [new_inline_eq c v h]; rfl
    · rw [new_heap_eq c v h]; rfl
  · intro evs h
    cases d with
    | onStack obj =>
      obtain ⟨data, vt⟩ := obj
      cases vt with
      | none => rw [call_onStack_none] at h; exact CallResult.noConfusion h
      | some cc =>
        rw [call_onStack_some] at h
        injection h with h1 h2
        subst h1
        exact ⟨rfl, rfl, rfl, rfl⟩
    | onHeap opt =>
      cases opt with
      | none => rw [call_onHeap_none] at h; exact CallResult.noConfusion h
      | some p =>
        obtain ⟨w, cc⟩ := p
        rw [call_onHeap_some] at h
        injection h with h1 h2
        subst h1
        exact ⟨rfl, rfl, rfl, rfl⟩
  · intro m evs h
    cases d with
    | onStack obj =>
      obtain ⟨data, vt⟩ := obj
      cases vt with
      | none =>
        rw [call_onStack_none] at h
        injection h with hm h1 h2
        subst h1
        exact ⟨rfl, rfl⟩
      | some cc => rw [call_onStack_some] at h; exact CallResult.noConfusion h
    | onHeap opt =>
      cases opt with
      | none =>
        rw [call_onHeap_none] at h
        injection h with hm h1 h2
        subst h1
        exact ⟨rfl, rfl⟩
      | some p =>
        obtain ⟨w, cc⟩ := p
        rw [call_onHeap_some] at h
        exact CallResult.noConfusion h

/-- C5 witness: the fresh one-byte `Deferred` is not invoked; after its
successful call the state is terminal and still inline. -/
theorem single_transition_witness :
    (Deferred.new boolClosure true).1.invoked = false ∧
    (Deferred.onStack ⟨dBoolData, none⟩ : Deferred Bool).invoked = true ∧
    (Deferred.onStack ⟨dBoolData, none⟩ : Deferred Bool).isOnStack =
      dBool.isOnStack := by
  have h := single_transition boolClosure true dBool
    (Deferred.onStack ⟨dBoolData, none⟩)
  have hok := h.2.1 [Event.clearVtable, Event.exec true, Event.dropCapture true]
    (by rfl)
  exact ⟨h.1, hok.2.1, hok.2.2.1⟩

/-- C6: for every faithfully byte-encoded capture (encoding has `size`
bytes and `ptr::read` of the encoding restores the value), construction
followed by invocation observes exactly the originally captured value:
the relocation into the inline buffer (or the move through the heap
box) is a round trip. -/
theorem captured_value_round_trip (c : Closure α) (v : α)
    (hlen : ∀ x, (c.encode x).length = c.size)
    (hdec : ∀ x, c.decode (c.encode x) = x) :
    observedValues ((Deferred.new c v).1.call.events) = [v] ∧
    (Deferred.new c v).1.call.isOk = true := by
  by_cases h : c.size ≤ 32 ∧ c.align ≤ 8
  · rw [new_inline_eq c v h]
    have hdata :
        (copyNonoverlapping (c.encode v) dataDefault c.size).take c.size =
          c.encode v := by
      unfold copyNonoverlapping
      have h1 : (c.encode v).take c.size = c.encode v := by
        rw [← hlen v]; exact List.take_length (c.encode v)
      rw [h1]
      exact List.take_left' (hlen v)
    constructor
    · rw [call_onStack_some]
      simp only [CallResult.events, observedValues, hdata, hdec v]
    · rw [call_onStack_some]; rfl
  · rw [new_heap_eq c v h]
    constructor
    · rw [call_onHeap_some]
      simp only [CallResult.events, observedValues]
    · rw [call_onHeap_some]; rfl

/-- C6 witness: the one-byte boolean capture is observed as the
original `true` after relocation and invocation. -/
theorem captured_value_round_trip_witness :
    observedValues ((Deferred.new boolClosure true).1.call.events) = [true] ∧
    (Deferred.new boolClosure true).1.call.isOk = true :=
  captured_value_round_trip boolClosure true (by decide) (by decide)

/-- C7 counterexample: a zero-sized capture is not always stored
inline: a zero-sized capture with alignment 64 (e.g. a closure
capturing an over-aligned zero-sized struct) fails the alignment test
and is classified on the heap. -/
theorem zero_size_over_aligned_on_heap :
    alignedZstClosure.size = 0 ∧
    (Deferred.new alignedZstClosure ()).1.isOnStack = false :=
  ⟨rfl, rfl⟩

/-- C7 (amended): every zero-sized capture whose alignment is within
the buffer alignment (at most 8) is stored inline — the buffer stays
all zeros since no bytes are copied — and invoking it runs the
computation correctly on the empty buffer. -/
theorem zero_size_inline (c : Closure α) (v : α)
    (hsize : c.size = 0) (halign : c.align ≤ 8)
    (hlen : ∀ x, (c.encode x).length = c.size)
    (hdec : ∀ x, c.decode (c.encode x) = x) :
    (Deferred.new c v).1 = Deferred.onStack ⟨dataDefault, some c⟩ ∧
    observedValues ((Deferred.new c v).1.call.events) = [v] ∧
    (Deferred.new c v).1.call.isOk = true := by
  have h : c.size ≤ 32 ∧ c.align ≤ 8 := ⟨by omega, halign⟩
  have henc : c.encode v = [] := by
    have hl := hlen v
    rw [hsize] at hl
    exact List.length_eq_zero.mp hl
  have hst : (Deferred.new c v).1 = Deferred.onStack ⟨dataDefault, some c⟩ := by
    rw [new_inline_eq c v h]
    simp [copyNonoverlapping, hsize]
  have hread : c.decode (dataDefault.take c.size) = v := by
    rw [hsize]
    have := hdec v
    rw [henc] at this
    simpa using this
  refine ⟨hst, ?_, ?_⟩
  · rw [hst, call_onStack_some]
    simp only [CallResult.events, observedValues, hread]
  · rw [hst, call_onStack_some]; rfl

/-- C7 witness: the trivial zero-sized capture (alignment 1) is stored
inline over the all-zero buffer and invokes correctly. -/
theorem zero_size_inline_witness :
    (Deferred.new zstClosure ()).1 = Deferred.onStack ⟨dataDefault, some zstClosure⟩ ∧
    observedValues ((Deferred.new zstClosure ()).1.call.events) = [()] ∧
    (Deferred.new zstClosure ()).1.call.isOk = true :=
  zero_size_inline zstClosure () rfl (by decide) (by decide) (by decide)

/-- C10: calling an already-invoked `Deferred` (sentinel handle)
panics with the already-invoked message and leaves the state exactly as
it was — the inline variant keeps its null vtable and untouched bytes,
the heap variant stays empty — and the panicking call performs no
execution and no drop of captured state. -/
theorem already_invoked_state_unchanged (d : Deferred α)
    (h : d.invoked = true) :
    d.call = CallResult.panic panicMsg d (sentinelTrace d) ∧
    execCount (sentinelTrace d) = 0 ∧ dropCount (sentinelTrace d) = 0 := by
  cases d with
  | onStack obj =>
    obtain ⟨data, vt⟩ := obj
    cases vt with
    | none => exact ⟨rfl, rfl, rfl⟩
    | some c => simp [Deferred.invoked] at h
  | onHeap opt =>
    cases opt with
    | none => exact ⟨rfl, rfl, rfl⟩
    | some p => simp [Deferred.invoked] at h

/-- C10 witness: calling the emptied heap variant panics, leaves it
empty, and neither executes nor drops anything. -/
theorem already_invoked_state_unchanged_witness :
    (Deferred.onHeap (none : Option (Bool × Closure Bool))).call =
      CallResult.panic panicMsg (Deferred.onHeap none)
        (sentinelTrace (Deferred.onHeap (none : Option (Bool × Closure Bool)))) ∧
    execCount (sentinelTrace (Deferred.onHeap (none : Option (Bool × Closure Bool)))) = 0 ∧
    dropCount (sentinelTrace (Deferred.onHeap (none : Option (Bool × Closure Bool)))) = 0 :=
  already_invoked_state_unchanged (Deferred.onHeap none) (by rfl)

end DeferredModel
